import Mathlib

/-!
Shallow embedding of the RV_2.0 status-report pipeline.

Sources embedded here:
- scripts/utils/approval-token.mjs : generateApprovalToken, buildApprovalUrl
- scripts/send-email.mjs           : env validation, sendEmail, injectApprovalButton
- scripts/fetch-notion-data.mjs    : env validation, fetchNotionData

JavaScript strings are modelled as Lean String; byte strings as List Nat with
each entry below 256; 32-bit machine words as Nat reduced modulo 2 ^ 32.
-/

namespace RV

/-- Truncate to a 32-bit word, as JS/Node crypto arithmetic does internally. -/
def w32 (n : Nat) : Nat := n % 4294967296

/-- Right rotation of a 32-bit word (input assumed below 2 ^ 32). -/
def rotr32 (b n : Nat) : Nat := w32 ((n >>> b) ||| (n <<< (32 - b)))

/-- SHA-256 big sigma 0. -/
def bigSigma0 (x : Nat) : Nat := rotr32 2 x ^^^ rotr32 13 x ^^^ rotr32 22 x

/-- SHA-256 big sigma 1. -/
def bigSigma1 (x : Nat) : Nat := rotr32 6 x ^^^ rotr32 11 x ^^^ rotr32 25 x

/-- SHA-256 small sigma 0. -/
def smallSigma0 (x : Nat) : Nat := rotr32 7 x ^^^ rotr32 18 x ^^^ (x >>> 3)

/-- SHA-256 small sigma 1. -/
def smallSigma1 (x : Nat) : Nat := rotr32 17 x ^^^ rotr32 19 x ^^^ (x >>> 10)

/-- SHA-256 choose function. -/
def ch (x y z : Nat) : Nat := (x &&& y) ^^^ ((x ^^^ 4294967295) &&& z)

/-- SHA-256 majority function. -/
def maj (x y z : Nat) : Nat := (x &&& y) ^^^ (x &&& z) ^^^ (y &&& z)

/-- The 64 SHA-256 round constants of FIPS 180-4, in decimal. -/
def sha256K : List Nat :=
  [1116352408, 1899447441, 3049323471, 3921009573, 961987163, 1508970993, 2453635748,
   2870763221, 3624381080, 310598401, 607225278, 1426881987, 1925078388, 2162078206,
   2614888103, 3248222580, 3835390401, 4022224774, 264347078, 604807628, 770255983,
   1249150122, 1555081692, 1996064986, 2554220882, 2821834349, 2952996808, 3210313671,
   3336571891, 3584528711, 113926993, 338241895, 666307205, 773529912, 1294757372,
   1396182291, 1695183700, 1986661051, 2177026350, 2456956037, 2730485921, 2820302411,
   3259730800, 3345764771, 3516065817, 3600352804, 4094571909, 275423344, 430227734,
   506948616, 659060556, 883997877, 958139571, 1322822218, 1537002063, 1747873779,
   1955562222, 2024104815, 2227730452, 2361852424, 2428436474, 2756734187, 3204031479,
   3329325298]

/-- SHA-256 working state: eight 32-bit words. -/
structure Hash8 where
  h0 : Nat
  h1 : Nat
  h2 : Nat
  h3 : Nat
  h4 : Nat
  h5 : Nat
  h6 : Nat
  h7 : Nat

/-- SHA-256 initial hash value of FIPS 180-4, in decimal. -/
def initHash : Hash8 :=
  ⟨1779033703, 3144134277, 1013904242, 2773480762,
   1359893119, 2600822924, 528734635, 1541459225⟩

/-- Pad a byte message per SHA-256: append 0x80, zeros to 56 mod 64, then the
bit length as eight big-endian bytes. -/
def padMessage (msg : List Nat) : List Nat :=
  let len := msg.length
  let zeros := (119 - len % 64) % 64
  let bitLen := len * 8
  msg ++ [128] ++ List.replicate zeros 0 ++
    (List.range 8).map (fun i => (bitLen >>> (8 * (7 - i))) % 256)

/-- Split a byte list into 64-byte chunks; the fuel is an upper bound on
the number of chunks, kept structural so that the kernel can evaluate it. -/
def chunksAux (fuel : Nat) (l : List Nat) : List (List Nat) :=
  match fuel with
  | 0 => []
  | fuel + 1 =>
    match l with
    | [] => []
    | _ => l.take 64 :: chunksAux fuel (l.drop 64)

/-- Split a byte list into 64-byte chunks. -/
def chunks (l : List Nat) : List (List Nat) := chunksAux l.length l

/-- Group bytes into 32-bit words, big-endian. -/
def toWords : List Nat → List Nat
  | b0 :: b1 :: b2 :: b3 :: rest =>
      (b0 * 16777216 + b1 * 65536 + b2 * 256 + b3) :: toWords rest
  | _ => []

/-- Extend a 16-word message schedule by the given number of additional words. -/
def extendSchedule (ws : List Nat) : Nat → List Nat
  | 0 => ws
  | n + 1 =>
      let i := ws.length
      extendSchedule
        (ws ++ [w32 (smallSigma1 (ws.getD (i - 2) 0) + ws.getD (i - 7) 0 +
                     smallSigma0 (ws.getD (i - 15) 0) + ws.getD (i - 16) 0)]) n

/-- One SHA-256 compression round; the pair carries the round constant and the
schedule word. -/
def compressRound (st : Hash8) (kw : Nat × Nat) : Hash8 :=
  let t1 := st.h7 + bigSigma1 st.h4 + ch st.h4 st.h5 st.h6 + kw.1 + kw.2
  let t2 := bigSigma0 st.h0 + maj st.h0 st.h1 st.h2
  ⟨w32 (t1 + t2), st.h0, st.h1, st.h2, w32 (st.h3 + t1), st.h4, st.h5, st.h6⟩

/-- Compress one 64-byte chunk into the running hash. -/
def compressChunk (hs : Hash8) (chunk : List Nat) : Hash8 :=
  let ws := extendSchedule (toWords chunk) 48
  let st := (sha256K.zip ws).foldl compressRound hs
  ⟨w32 (hs.h0 + st.h0), w32 (hs.h1 + st.h1), w32 (hs.h2 + st.h2), w32 (hs.h3 + st.h3),
   w32 (hs.h4 + st.h4), w32 (hs.h5 + st.h5), w32 (hs.h6 + st.h6), w32 (hs.h7 + st.h7)⟩

/-- Serialize a 32-bit word as four big-endian bytes. -/
def wordBytes (n : Nat) : List Nat :=
  [(n >>> 24) % 256, (n >>> 16) % 256, (n >>> 8) % 256, n % 256]

/-- SHA-256 of a byte message: the 32 digest bytes. -/
def sha256 (msg : List Nat) : List Nat :=
  let hs := (chunks (padMessage msg)).foldl compressChunk initHash
  wordBytes hs.h0 ++ wordBytes hs.h1 ++ wordBytes hs.h2 ++ wordBytes hs.h3 ++
  wordBytes hs.h4 ++ wordBytes hs.h5 ++ wordBytes hs.h6 ++ wordBytes hs.h7

/-- HMAC-SHA256 over byte lists (block size 64), as Node
`crypto.createHmac("sha256", key)` computes it. -/
def hmacSha256 (key msg : List Nat) : List Nat :=
  let k0 := if 64 < key.length then sha256 key else key
  let kpad := k0 ++ List.replicate (64 - k0.length) 0
  sha256 ((kpad.map (fun b => b ^^^ 92)) ++ sha256 ((kpad.map (fun b => b ^^^ 54)) ++ msg))

/-- The sixteen lower-case hex digit characters, in value order. -/
def hexDigits : List Char := String.data "0123456789abcdef"

/-- The hex digit character for a value below 16. -/
def hexDigit (n : Nat) : Char := hexDigits.getD n '0'

/-- Two lower-case hex characters for one byte. -/
def byteHex (b : Nat) : List Char := [hexDigit ((b / 16) % 16), hexDigit (b % 16)]

/-- Lower-case hex rendering of a byte list, as Node `digest("hex")` emits. -/
def bytesToHex (bs : List Nat) : String := String.mk ((bs.map byteHex).flatten)

/-- UTF-8 encoding of one character, as Node applies to string inputs. -/
def encChar (c : Char) : List Nat :=
  let n := c.toNat
  if n < 128 then [n]
  else if n < 2048 then [192 ||| (n >>> 6), 128 ||| (n &&& 63)]
  else if n < 65536 then
    [224 ||| (n >>> 12), 128 ||| ((n >>> 6) &&& 63), 128 ||| (n &&& 63)]
  else
    [240 ||| (n >>> 18), 128 ||| ((n >>> 12) &&& 63), 128 ||| ((n >>> 6) &&& 63),
     128 ||| (n &&& 63)]

/-- UTF-8 bytes of a string. -/
def utf8Bytes (s : String) : List Nat := (s.data.map encChar).flatten

/-- Embedding of `generateApprovalToken(runId, secret)` from
scripts/utils/approval-token.mjs: the lower-case hex HMAC-SHA256 digest of
`runId` keyed by `secret`. -/
def generateApprovalToken (runId secret : String) : String :=
  bytesToHex (hmacSha256 (utf8Bytes secret) (utf8Bytes runId))

/-- Embedding of `buildApprovalUrl(runId, token, deploymentUrl)` from
scripts/utils/approval-token.mjs: a template-literal concatenation with no
URL-encoding of any part. -/
def buildApprovalUrl (runId token deploymentUrl : String) : String :=
  deploymentUrl ++ "/api/approve?token=" ++ token ++ "&run_id=" ++ runId

/-- Modelled from the spec: the Dispatch Trigger's token verification. The
handler `api/approve.js` is not under src/ (only the docs and the spec
describe it); per spec section 4.5, verification recomputes
`sign(runId, secret)` and compares it with the candidate signature. -/
def verify (runId candidateSignature secret : String) : Bool :=
  candidateSignature == generateApprovalToken runId secret

/-- The banner text of send-email.mjs `injectApprovalButton` before the
interpolated approval URL (the template literal up to the href value). -/
def bannerPre : String :=
  "\n<div style=\"background: #f0fdf4; border: 1px solid #86efac; border-radius: 8px; padding: 20px; margin-bottom: 20px; text-align: center;\">\n  <p style=\"margin: 0 0 12px 0; color: #166534; font-weight: bold;\">📧 Preview: Click below to approve and send to all recipients</p>\n  <a href=\""

/-- The banner text of send-email.mjs `injectApprovalButton` after the
interpolated approval URL (href close through the trailing indentation). -/
def bannerPost : String :=
  "\" style=\"display: inline-block; background: #22c55e; color: white; padding: 12px 24px; border-radius: 6px; text-decoration: none; font-weight: bold; border: none; cursor: pointer;\">✅ Approve & Send</a>\n  <p style=\"margin: 12px 0 0 0; color: #666; font-size: 12px;\">This link expires in 24 hours.</p>\n</div>\n  "

/-- The `approvalButtonHtml` template literal of `injectApprovalButton`,
with the signed approval URL interpolated. -/
def approvalButtonHtml (runId secret deploymentUrl : String) : String :=
  bannerPre ++ buildApprovalUrl runId (generateApprovalToken runId secret) deploymentUrl ++
    bannerPost

/-- Consume characters up to and including the first close angle bracket:
the `[^>]*>` tail of the body-tag regex. Returns the consumed characters
(ending in the bracket) and the remainder; `none` when no close bracket
occurs. -/
def tagRest : List Char → Option (List Char × List Char)
  | [] => none
  | c :: rest =>
    if c = '>' then some ([c], rest)
    else
      match tagRest rest with
      | some (mid, rem) => some (c :: mid, rem)
      | none => none

/-- Try the regex `<body[^>]*>` (case-insensitive, as the `i` flag makes it)
at the head of the character list. On success returns the matched tag text
and the remainder. -/
def bodyTagAt : List Char → Option (List Char × List Char)
  | '<' :: b :: o :: d :: y :: rest =>
    if (b = 'b' ∨ b = 'B') ∧ (o = 'o' ∨ o = 'O') ∧ (d = 'd' ∨ d = 'D') ∧ (y = 'y' ∨ y = 'Y') then
      match tagRest rest with
      | some (mid, rem) => some ('<' :: b :: o :: d :: y :: mid, rem)
      | none => none
    else none
  | _ => none

/-- Leftmost match of `<body[^>]*>`: JS `String.replace` with a non-global
regex replaces the first position at which the whole pattern matches. On
success returns the characters before the match, the matched tag, and the
remainder after it. -/
def findBodyTag : List Char → Option (List Char × List Char × List Char)
  | [] => none
  | c :: rest =>
    match bodyTagAt (c :: rest) with
    | some (tag, rem) => some ([], tag, rem)
    | none =>
      match findBodyTag rest with
      | some (pre, tag, suf) => some (c :: pre, tag, suf)
      | none => none

/-- The ECMAScript GetSubstitution processing of a replacement template, for
a regex with exactly one capture group that spans the whole match (as
`(<body[^>]*>)` does, so group 1 equals the matched text). `m` is the
matched text, `b` the part of the subject before the match, `a` the part
after it. Dollar followed by dollar emits one dollar; dollar-ampersand the
match; dollar-backtick (code 96) the preceding part; dollar-quote (code 39)
the following part; dollar-1 the first capture, also when further digits
follow, since the two-digit group number would exceed the capture count and
the lookup falls back to one digit; dollar-0-1 is the two-digit reading of
group 1; any other dollar sequence stands for itself. Substituted text is
never rescanned. -/
def getSubst (m b a : List Char) : List Char → List Char
  | [] => []
  | [c] => if c = '$' then ['$'] else [c]
  | '$' :: '0' :: '1' :: r => m ++ getSubst m b a r
  | c :: c2 :: r =>
    if c = '$' then
      if c2 = '$' then '$' :: getSubst m b a r
      else if c2 = '&' then m ++ getSubst m b a r
      else if c2.toNat = 96 then b ++ getSubst m b a r
      else if c2.toNat = 39 then a ++ getSubst m b a r
      else if c2 = '1' then m ++ getSubst m b a r
      else '$' :: c2 :: getSubst m b a r
    else c :: getSubst m b a (c2 :: r)

/-- Does the list start with the five characters of the lower-case string
used by the JS guard `htmlContent.includes("<body")`? -/
def startsWithBodyLower : List Char → Bool
  | '<' :: 'b' :: 'o' :: 'd' :: 'y' :: _ => true
  | _ => false

/-- The case-sensitive substring test `htmlContent.includes("<body")`. -/
def containsBodyLower : List Char → Bool
  | [] => false
  | c :: rest => startsWithBodyLower (c :: rest) || containsBodyLower rest

/-- Embedding of `injectApprovalButton(htmlContent)` from send-email.mjs.
The module globals GITHUB_RUN_ID, APPROVAL_TOKEN_SECRET and
VERCEL_DEPLOYMENT_URL appear here as explicit parameters. When the content
includes the lower-case substring matched case-sensitively, the first
case-insensitive `<body[^>]*>` match is replaced by the GetSubstitution
processing of the replacement template, which is the two characters
dollar-1 followed by the banner text; if the regex never matches, JS
`replace` returns the content unchanged. Otherwise the banner is
prepended with no substitution. -/
def injectApprovalButton (htmlContent runId secret deploymentUrl : String) : String :=
  let banner := approvalButtonHtml runId secret deploymentUrl
  if containsBodyLower htmlContent.data then
    match findBodyTag htmlContent.data with
    | some (pre, tag, suf) =>
        String.mk (pre ++ getSubst tag pre suf ('$' :: '1' :: banner.data) ++ suf)
    | none => htmlContent
  else banner ++ htmlContent

/-- JS string truthiness of an optional environment variable: absent and
empty values are falsy. -/
def present (o : Option String) : Bool :=
  match o with
  | some s => s != ""
  | none => false

/-- The `o || d` defaulting idiom of fetch-notion-data.mjs applied to an
optional string property: absent or empty values fall back to the default. -/
def strOr (o : Option String) (d : String) : String :=
  match o with
  | some s => if s = "" then d else s
  | none => d

/-- One raw Notion database item as fetch-notion-data.mjs reads it: each
field holds the result of the optional-chaining property access
(`none` when any link in the chain is absent). -/
structure RawItem where
  id : String
  nameTitle : Option String
  statusName : Option String
  priorityName : Option String
  updatesTexts : Option (List String)
  clientName : Option String
  url : String
deriving DecidableEq

/-- The normalized record shape written to data/notion-raw.json. -/
structure Record where
  id : String
  name : String
  status : String
  priority : String
  updates : String
  client : String
  url : String
deriving DecidableEq

/-- JS `join("")` over the rich-text fragments. -/
def joinAll (ts : List String) : String := ts.foldl (fun a b => a ++ b) ""

/-- The per-item normalization of fetch-notion-data.mjs (the body of the
`dbData.results.map` callback). -/
def normalizeItem (item : RawItem) : Record :=
  { id := item.id
    name := strOr item.nameTitle "Untitled"
    status := strOr item.statusName "No status"
    priority := strOr item.priorityName "No priority"
    updates :=
      match item.updatesTexts with
      | some ts => joinAll ts
      | none => ""
    client := strOr item.clientName "Unknown"
    url := item.url }

/-- The full batch normalization: a plain map, no item dropped. -/
def normalizeItems (items : List RawItem) : List Record := items.map normalizeItem

/-- A mail message as handed to the transport (the JS field `to` is the
reserved token `to` in Lean, hence `toList`). -/
structure MailOptions where
  toList : List String
  subject : String
  html : String
deriving DecidableEq

/-- Observable steps of a script run, in order: network requests, file
reads and writes, captured diagnostics, sends, and process exits. -/
inductive Step where
  | request (url : String)
  | readFile (path : String)
  | writeFile (path : String)
  | logError (msg : String)
  | send (mail : MailOptions)
  | exitStep (code : Nat)
deriving DecidableEq

/-- The structured content of data/notion-raw.json (the fetchedAt timestamp
is an uninterpreted wall-clock value and is not modelled). -/
structure NotionOutput where
  dbTitle : String
  dbId : String
  items : List Record
  itemCount : Nat
deriving DecidableEq

/-- The fetcher's environment variables. -/
structure FetchEnv where
  notionApiToken : Option String
  notionDatabaseId : Option String

/-- The Notion endpoint's behavior for one run: the metadata response, the
query response status, and the full collection behind the database. -/
structure NotionServer where
  metaOk : Bool
  metaBody : String
  metaTitle : Option String
  queryOk : Bool
  queryBody : String
  collection : List RawItem

/-- The results page the endpoint returns to a query carrying `page_size`
and no start cursor: the first `pageSize` items of the collection. -/
def queryResults (server : NotionServer) (pageSize : Nat) : List RawItem :=
  server.collection.take pageSize

/-- The `has_more` flag the endpoint would set on that page. The script
never reads it and issues no follow-up request. -/
def queryHasMore (server : NotionServer) (pageSize : Nat) : Bool :=
  pageSize < server.collection.length

/-- Outcome of one fetch-notion-data.mjs run. -/
structure RunResult where
  steps : List Step
  exitCode : Nat
  written : Option NotionOutput

/-- The database metadata URL. -/
def metaUrl (dbId : String) : String := "https://api.notion.com/v1/databases/" ++ dbId

/-- The database query URL. -/
def queryUrl (dbId : String) : String := metaUrl dbId ++ "/query"

/-- Embedding of fetch-notion-data.mjs: validate the two environment
variables, fetch metadata, issue a single query with `page_size: 100`, and
write data/notion-raw.json. Any missing variable or non-2xx response exits
with code 1 before the write; the failing response body is captured. -/
def fetchScript (env : FetchEnv) (server : NotionServer) : RunResult :=
  if !present env.notionApiToken then ⟨[Step.exitStep 1], 1, none⟩
  else if !present env.notionDatabaseId then ⟨[Step.exitStep 1], 1, none⟩
  else
    let dbId := env.notionDatabaseId.getD ""
    if !server.metaOk then
      ⟨[Step.request (metaUrl dbId), Step.logError server.metaBody, Step.exitStep 1], 1, none⟩
    else if !server.queryOk then
      ⟨[Step.request (metaUrl dbId), Step.request (queryUrl dbId),
        Step.logError server.queryBody, Step.exitStep 1], 1, none⟩
    else
      let items := normalizeItems (queryResults server 100)
      let out : NotionOutput :=
        ⟨strOr server.metaTitle "Unknown Database", dbId, items, items.length⟩
      ⟨[Step.request (metaUrl dbId), Step.request (queryUrl dbId),
        Step.writeFile "data/notion-raw.json"], 0, some out⟩

/-- The mailer's environment variables (send-email.mjs). -/
structure MailEnv where
  gmailFromEmail : Option String
  gmailAppPassword : Option String
  emailRecipients : Option String
  isTestEmailVar : Option String
  approvalTokenSecret : Option String
  vercelDeploymentUrl : Option String
  githubRunId : Option String

/-- The strict comparison `process.env.IS_TEST_EMAIL === "true"`. -/
def isTestEmail (env : MailEnv) : Bool := env.isTestEmailVar == some "true"

/-- The `missingVars` list built by the validation block of send-email.mjs
(the JS strings carry a parenthetical hint for the three test-email
variables; only the variable names are modelled). -/
def missingVars (env : MailEnv) : List String :=
  (if present env.gmailFromEmail then [] else ["GMAIL_FROM_EMAIL"]) ++
  (if present env.gmailAppPassword then [] else ["GMAIL_APP_PASSWORD"]) ++
  (if present env.emailRecipients then [] else ["EMAIL_RECIPIENTS"]) ++
  (if isTestEmail env then
    (if present env.approvalTokenSecret then [] else ["APPROVAL_TOKEN_SECRET"]) ++
    (if present env.vercelDeploymentUrl then [] else ["VERCEL_DEPLOYMENT_URL"]) ++
    (if present env.githubRunId then [] else ["GITHUB_RUN_ID"])
  else [])

/-- The characters stripped by JS `String.prototype.trim`: the ECMAScript
WhiteSpace set (TAB, VT, FF, SP, NBSP, ZWNBSP and the Unicode
space-separator category) together with the LineTerminator set (LF, CR,
LS, PS). -/
def isWS (c : Char) : Bool :=
  c.toNat = 9 || c.toNat = 10 || c.toNat = 11 || c.toNat = 12 || c.toNat = 13 ||
  c.toNat = 32 || c.toNat = 160 || c.toNat = 5760 ||
  (8192 ≤ c.toNat && c.toNat ≤ 8202) ||
  c.toNat = 8232 || c.toNat = 8233 || c.toNat = 8239 || c.toNat = 8287 ||
  c.toNat = 12288 || c.toNat = 65279

/-- JS `trim`: strip leading and trailing whitespace. -/
def trimChars (cs : List Char) : List Char :=
  ((cs.dropWhile isWS).reverse.dropWhile isWS).reverse

/-- JS `split(",")` on the character list. -/
def splitOnComma : List Char → List (List Char)
  | [] => [[]]
  | c :: rest =>
    match splitOnComma rest with
    | [] => [[c]]
    | h :: t => if c = ',' then [] :: h :: t else (c :: h) :: t

/-- The recipient parsing of send-email.mjs:
`EMAIL_RECIPIENTS.split(",").map(e => e.trim()).filter(e => e.length > 0)`. -/
def parseRecipients (s : String) : List String :=
  ((splitOnComma s.data).map (fun cs => String.mk (trimChars cs))).filter
    (fun r => r.length > 0)

/-- Outcome of one send-email.mjs run. -/
structure MailResult where
  steps : List Step
  exitCode : Nat
  sent : Option MailOptions

/-- The report file path read by send-email.mjs. -/
def reportPath : String := "NOTION_PROJECT_STATUS.html"

/-- Embedding of send-email.mjs: the module-level validation block exits
with code 1 on any missing variable before any file read or send; then the
report file is read (absence throws, caught as exit 1), the banner injected
only when the test-email flag is set, recipients parsed (an empty list
throws, caught as exit 1), and the message handed to the transport. The
`dateStr` parameter stands for the locale-formatted current date. -/
def mailerScript (env : MailEnv) (reportFile : Option String) (dateStr : String) : MailResult :=
  if missingVars env ≠ [] then ⟨[Step.exitStep 1], 1, none⟩
  else
    match reportFile with
    | none => ⟨[Step.exitStep 1], 1, none⟩
    | some report =>
      let html :=
        if isTestEmail env then
          injectApprovalButton report (env.githubRunId.getD "")
            (env.approvalTokenSecret.getD "") (env.vercelDeploymentUrl.getD "")
        else report
      let recipients := parseRecipients (env.emailRecipients.getD "")
      if recipients = [] then ⟨[Step.readFile reportPath, Step.exitStep 1], 1, none⟩
      else
        let subject :=
          if isTestEmail env then "[TEST] Product Status Update - " ++ dateStr
          else "Product Status Update - " ++ dateStr
        let mail : MailOptions := ⟨recipients, subject, html⟩
        ⟨[Step.readFile reportPath, Step.send mail], 0, some mail⟩

/-- Modelled from the spec: the Release Controller's PREVIEW run context.
The GitHub workflow that invokes send-email.mjs is not under src/; per spec
sections 4.4 and 4.7, a preview run sets the test-email flag and supplies a
single preview recipient. -/
def previewEnv (gmailFrom gmailPass previewAddr secret deploymentUrl runId : String) : MailEnv :=
  { gmailFromEmail := some gmailFrom
    gmailAppPassword := some gmailPass
    emailRecipients := some previewAddr
    isTestEmailVar := some "true"
    approvalTokenSecret := some secret
    vercelDeploymentUrl := some deploymentUrl
    githubRunId := some runId }

/-- Modelled from the spec: the Release Controller's BROADCAST run context.
The GitHub workflow that invokes send-email.mjs is not under src/; per spec
sections 4.4 and 4.7, a broadcast run leaves the test-email flag unset and
supplies the full recipient list. -/
def broadcastEnv (gmailFrom gmailPass recipientList : String) : MailEnv :=
  { gmailFromEmail := some gmailFrom
    gmailAppPassword := some gmailPass
    emailRecipients := some recipientList
    isTestEmailVar := none
    approvalTokenSecret := none
    vercelDeploymentUrl := none
    githubRunId := none }

/-! ## Helper lemmas -/

set_option maxRecDepth 10000

/-- The hex rendering emits two characters per byte. -/
theorem length_flatten_byteHex (bs : List Nat) :
    ((bs.map byteHex).flatten).length = 2 * bs.length := by
  induction bs with
  | nil => rfl
  | cons b bs ih =>
    simp only [List.map_cons, List.flatten_cons, List.length_append, ih, byteHex,
      List.length_cons, List.length_nil]
    omega

/-- A SHA-256 digest has 32 bytes. -/
theorem sha256_length (msg : List Nat) : (sha256 msg).length = 32 := by
  simp [sha256, wordBytes]

/-- Word serialization produces bytes. -/
theorem mem_wordBytes_lt {b n : Nat} (h : b ∈ wordBytes n) : b < 256 := by
  simp only [wordBytes, List.mem_cons, List.not_mem_nil, or_false] at h
  rcases h with h | h | h | h <;> subst h <;> exact Nat.mod_lt _ (by decide)

/-- Digest entries are bytes. -/
theorem sha256_mem_lt {msg : List Nat} {b : Nat} (h : b ∈ sha256 msg) : b < 256 := by
  simp only [sha256, List.mem_append] at h
  rcases h with ((((((h | h) | h) | h) | h) | h) | h) | h <;> exact mem_wordBytes_lt h

/-- An HMAC-SHA256 digest has 32 bytes. -/
theorem hmac_length (k m : List Nat) : (hmacSha256 k m).length = 32 :=
  sha256_length _

/-- HMAC digest entries are bytes. -/
theorem hmac_mem_lt {k m : List Nat} {b : Nat} (h : b ∈ hmacSha256 k m) : b < 256 :=
  sha256_mem_lt h

/-- Base-256 packing of a byte list into one natural number. -/
def pack : List Nat → Nat
  | [] => 0
  | b :: bs => b + 256 * pack bs

/-- Packing is bounded by the byte count. -/
theorem pack_lt (l : List Nat) (hl : ∀ b ∈ l, b < 256) : pack l < 256 ^ l.length := by
  induction l with
  | nil => simp [pack]
  | cons b bs ih =>
    have h1 : pack bs < 256 ^ bs.length := ih (fun x hx => hl x (List.mem_cons_of_mem _ hx))
    have h2 : b < 256 := hl b (List.mem_cons_self b bs)
    have h3 : (256 : Nat) ^ (b :: bs).length = 256 * 256 ^ bs.length := by
      rw [List.length_cons, pow_succ]; ring
    rw [h3]
    simp only [pack]
    omega

/-- Packing is injective on equal-length byte lists. -/
theorem pack_inj : ∀ (l1 l2 : List Nat), l1.length = l2.length → (∀ b ∈ l1, b < 256) →
    (∀ b ∈ l2, b < 256) → pack l1 = pack l2 → l1 = l2 := by
  intro l1
  induction l1 with
  | nil =>
    intro l2 hlen _ _ _
    cases l2 with
    | nil => rfl
    | cons c cs => simp at hlen
  | cons b bs ih =>
    intro l2 hlen h1 h2 hp
    cases l2 with
    | nil => simp at hlen
    | cons c cs =>
      simp only [pack] at hp
      have hb : b < 256 := h1 b (List.mem_cons_self b bs)
      have hc : c < 256 := h2 c (List.mem_cons_self c cs)
      have hbc : b = c ∧ pack bs = pack cs := by omega
      have hlen2 : bs.length = cs.length := by simpa using hlen
      have hrest := ih cs hlen2 (fun x hx => h1 x (List.mem_cons_of_mem _ hx))
        (fun x hx => h2 x (List.mem_cons_of_mem _ hx)) hbc.2
      rw [hbc.1, hrest]

/-- Every hex digit character is a hex digit character. -/
theorem hexDigit_mem (n : Nat) : hexDigit n ∈ hexDigits := by
  by_cases h : n < 16
  · interval_cases n <;> decide
  · have hlen : hexDigits.length ≤ n := by
      have h16 : hexDigits.length = 16 := by decide
      omega
    rw [hexDigit, List.getD_eq_default _ _ hlen]
    decide

/-- The token characters are the flattened per-byte hex pairs. -/
theorem token_data (r s : String) :
    (generateApprovalToken r s).data =
      ((hmacSha256 (utf8Bytes s) (utf8Bytes r)).map byteHex).flatten := rfl

/-- A token has 64 characters. -/
theorem token_data_length (r s : String) : (generateApprovalToken r s).data.length = 64 := by
  rw [token_data, length_flatten_byteHex, hmac_length]

/-- A token has string length 64. -/
theorem token_length (r s : String) : (generateApprovalToken r s).length = 64 :=
  token_data_length r s

/-- Every token character is a lower-case hex digit. -/
theorem token_chars_hex {r s : String} {c : Char}
    (h : c ∈ (generateApprovalToken r s).data) : c ∈ hexDigits := by
  rw [token_data] at h
  simp only [List.mem_flatten, List.mem_map] at h
  obtain ⟨l, ⟨b, hb, rfl⟩, hc⟩ := h
  simp only [byteHex, List.mem_cons, List.not_mem_nil, or_false] at hc
  rcases hc with rfl | rfl <;> exact hexDigit_mem _

/-- `tagRest` splits its input: the consumed part followed by the remainder. -/
theorem tagRest_eq : ∀ {cs mid rem : List Char}, tagRest cs = some (mid, rem) →
    cs = mid ++ rem := by
  intro cs
  induction cs with
  | nil => intro mid rem h; simp [tagRest] at h
  | cons c rest ih =>
    intro mid rem h
    simp only [tagRest] at h
    by_cases hc : c = '>'
    · rw [if_pos hc] at h
      simp only [Option.some.injEq, Prod.mk.injEq] at h
      obtain ⟨h1, h2⟩ := h
      rw [← h1, ← h2]
      rfl
    · rw [if_neg hc] at h
      cases htr : tagRest rest with
      | none => rw [htr] at h; simp at h
      | some p =>
        obtain ⟨mid0, rem0⟩ := p
        rw [htr] at h
        simp only [Option.some.injEq, Prod.mk.injEq] at h
        obtain ⟨h1, h2⟩ := h
        rw [← h1, ← h2, List.cons_append, ← ih htr]

/-- `bodyTagAt` splits its input: the matched tag followed by the remainder. -/
theorem bodyTagAt_eq : ∀ {cs tag rem : List Char}, bodyTagAt cs = some (tag, rem) →
    cs = tag ++ rem := by
  intro cs tag rem h
  unfold bodyTagAt at h
  split at h
  · split at h
    · rename_i rest hcond
      cases htr : tagRest rest with
      | none => rw [htr] at h; simp at h
      | some p =>
        obtain ⟨mid, rem0⟩ := p
        rw [htr] at h
        simp only [Option.some.injEq, Prod.mk.injEq] at h
        obtain ⟨h1, h2⟩ := h
        rw [← h1, ← h2]
        simp [tagRest_eq htr]
    · simp at h
  · simp at h

/-- `findBodyTag` splits its input at the leftmost body-tag match: the part
before the match, the matched tag, and the part after it. -/
theorem findBodyTag_eq : ∀ {cs pre tag suf : List Char},
    findBodyTag cs = some (pre, tag, suf) → cs = pre ++ tag ++ suf := by
  intro cs
  induction cs with
  | nil => intro pre tag suf h; simp [findBodyTag] at h
  | cons c rest ih =>
    intro pre tag suf h
    simp only [findBodyTag] at h
    cases hb : bodyTagAt (c :: rest) with
    | some p =>
      obtain ⟨tag0, rem0⟩ := p
      rw [hb] at h
      simp only [Option.some.injEq, Prod.mk.injEq] at h
      obtain ⟨h1, h2, h3⟩ := h
      rw [← h1, ← h2, ← h3]
      simpa using bodyTagAt_eq hb
    | none =>
      rw [hb] at h
      cases hf : findBodyTag rest with
      | none => rw [hf] at h; simp at h
      | some q =>
        obtain ⟨pre0, tag0, suf0⟩ := q
        rw [hf] at h
        simp only [Option.some.injEq, Prod.mk.injEq] at h
        obtain ⟨h1, h2, h3⟩ := h
        rw [← h1, ← h2, ← h3]
        simp [ih hf]

/-- GetSubstitution on a template that holds no dollar character is the
identity. -/
theorem getSubst_no_dollar (m b a : List Char) :
    ∀ t : List Char, '$' ∉ t → getSubst m b a t = t := by
  intro t
  induction t with
  | nil => intro _; rfl
  | cons c rest ih =>
    intro h
    have hc : c ≠ '$' := fun he => h (he ▸ List.mem_cons_self _ _)
    have hrest : '$' ∉ rest := fun hm => h (List.mem_cons_of_mem _ hm)
    cases rest with
    | nil => simp [getSubst, hc]
    | cons c2 r2 =>
      rw [getSubst.eq_def]
      split
      · simp_all
      · simp_all
      · rename_i r3 heq
        injection heq with h1 h2
        exact absurd h1 hc
      · rename_i hno heq
        injection heq with e1 erest
        injection erest with e2 e3
        subst e1; subst e2; subst e3
        rw [if_neg hc, ih hrest]

/-- GetSubstitution on the actual replacement template of send-email.mjs —
dollar-1 followed by the banner — emits the matched tag and then the
substituted banner. -/
theorem getSubst_capture (m b a t : List Char) :
    getSubst m b a ('$' :: '1' :: t) = m ++ getSubst m b a t := rfl

/-! ## Claims -/

/-- Claim C1: token determinism — for every runId string and every secret
string, two calls of the signing function with the same runId and secret
produce identical output; the signature is a pure keyed hash of the runId
under the secret and of nothing else. -/
theorem c1_sign_deterministic (runId secret : String) :
    generateApprovalToken runId secret = generateApprovalToken runId secret ∧
    generateApprovalToken runId secret =
      bytesToHex (hmacSha256 (utf8Bytes secret) (utf8Bytes runId)) :=
  ⟨rfl, rfl⟩

/-- Claim C2: token wire format — the signing function returns the
lower-case hex HMAC-SHA256 digest of runId under secret, a string of
exactly 64 characters all drawn from 0-9a-f, and the action URL embeds
exactly this string as the token query parameter. -/
theorem c2_token_wire_format (runId secret deploymentUrl : String) :
    generateApprovalToken runId secret =
      bytesToHex (hmacSha256 (utf8Bytes secret) (utf8Bytes runId)) ∧
    (generateApprovalToken runId secret).length = 64 ∧
    (∀ c ∈ (generateApprovalToken runId secret).data, c ∈ hexDigits) ∧
    buildApprovalUrl runId (generateApprovalToken runId secret) deploymentUrl =
      deploymentUrl ++ "/api/approve?token=" ++ generateApprovalToken runId secret ++
        "&run_id=" ++ runId :=
  ⟨rfl, token_length runId secret, fun _ hc => token_chars_hex hc, rfl⟩

/-- Claim C2, witness: the wire-format theorem applied at a concrete runId
and secret; the character hypothesis is discharged on the first digit of
the concrete token. -/
theorem c2_token_wire_format_witness :
    'e' ∈ (generateApprovalToken "12345" "mysecret").data ∧ 'e' ∈ hexDigits :=
  ⟨by decide,
   (c2_token_wire_format "12345" "mysecret" "https://rv-2-0.vercel.app").2.2.1 'e' (by decide)⟩

/-- Claim C3, counterexample: the claim as stated — verification of one
runId against the signature of any other runId always fails — is false,
because infinitely many runId strings map to the finitely many 64-digit
hex signatures, so some two distinct runIds share a signature and then
verification of the one against the signature of the other succeeds. -/
theorem c3_counterexample :
    ¬ (∀ r1 r2 s : String, r1 ≠ r2 →
        verify r1 (generateApprovalToken r2 s) s = false) := by
  intro H
  have hpack : ∀ n : ℕ,
      pack (hmacSha256 (utf8Bytes "k") (utf8Bytes (String.mk (List.replicate n 'a')))) <
        256 ^ 32 := by
    intro n
    have h2 := pack_lt (hmacSha256 (utf8Bytes "k") (utf8Bytes (String.mk (List.replicate n 'a'))))
      (fun b hb => hmac_mem_lt hb)
    rw [hmac_length] at h2
    exact h2
  obtain ⟨m, n, hmn, hf⟩ := Finite.exists_ne_map_eq_of_infinite
    (fun n : ℕ =>
      (⟨pack (hmacSha256 (utf8Bytes "k") (utf8Bytes (String.mk (List.replicate n 'a')))),
        hpack n⟩ : Fin (256 ^ 32)))
  simp only [Fin.mk.injEq] at hf
  have hdig := pack_inj _ _ (by rw [hmac_length, hmac_length])
    (fun b hb => hmac_mem_lt hb) (fun b hb => hmac_mem_lt hb) hf
  have htok : generateApprovalToken (String.mk (List.replicate m 'a')) "k" =
      generateApprovalToken (String.mk (List.replicate n 'a')) "k" :=
    congrArg bytesToHex hdig
  have hne : String.mk (List.replicate m 'a') ≠ String.mk (List.replicate n 'a') := by
    intro he
    apply hmn
    have hdata := congrArg String.data he
    have hlen := congrArg List.length hdata
    simpa using hlen
  have hv := H _ _ "k" hne
  unfold verify at hv
  rw [htok] at hv
  simp at hv

/-- Claim C3 (amended): verification recomputes the signature and compares,
so verifying runId1 against the signature computed for runId2 fails
whenever the two signatures differ (by the counterexample, distinct runIds
can in principle share a signature, so the claim cannot demand this for
every distinct pair); and changing any single character of a valid token
makes verification of that token fail. -/
theorem c3_signature_integrity :
    (∀ r1 r2 s : String,
      generateApprovalToken r1 s ≠ generateApprovalToken r2 s →
      verify r1 (generateApprovalToken r2 s) s = false) ∧
    (∀ (r s : String) (i : Nat) (c : Char)
      (h : i < (generateApprovalToken r s).data.length),
      c ≠ (generateApprovalToken r s).data.get ⟨i, h⟩ →
      verify r (String.mk ((generateApprovalToken r s).data.set i c)) s = false) := by
  constructor
  · intro r1 r2 s hne
    simp only [verify, beq_eq_false_iff_ne]
    exact fun he => hne he.symm
  · intro r s i c h hc
    simp only [verify, beq_eq_false_iff_ne]
    intro he
    apply hc
    have hd : (generateApprovalToken r s).data.set i c = (generateApprovalToken r s).data :=
      congrArg String.data he
    have h1 : ((generateApprovalToken r s).data.set i c)[i]? = some c :=
      List.getElem?_set_eq_of_lt c h
    rw [hd, List.getElem?_eq_getElem h] at h1
    rw [List.get_eq_getElem]
    exact (Option.some.injEq _ _ ▸ h1).symm

/-- Claim C3, witness: the amended theorem applied at concrete runIds with
demonstrably different signatures, and at a concrete token with its first
character overwritten by a non-hex character. -/
theorem c3_signature_integrity_witness :
    verify "1" (generateApprovalToken "2" "secret") "secret" = false ∧
    verify "12345"
      (String.mk ((generateApprovalToken "12345" "mysecret").data.set 0 'z'))
      "mysecret" = false := by
  constructor
  · exact c3_signature_integrity.1 "1" "2" "secret" (by decide)
  · refine c3_signature_integrity.2 "12345" "mysecret" 0 'z'
      (by rw [token_data_length]; decide) ?_
    intro he
    have hmem : (generateApprovalToken "12345" "mysecret").data.get
        ⟨0, by rw [token_data_length]; decide⟩ ∈ hexDigits :=
      token_chars_hex (List.get_mem _ _ _)
    rw [← he] at hmem
    exact absurd hmem (by decide)

/-- Claim C10: the approval URL is built by plain string concatenation with
no URL-encoding, so a runId containing URL-reserved characters is embedded
unescaped — concretely, runId "B&run_id=C" with token "A" produces the very
same URL as runId "C" with token "A&run_id=B". -/
theorem c10_url_plain_concatenation :
    (∀ runId tok deploymentUrl : String,
      buildApprovalUrl runId tok deploymentUrl =
        deploymentUrl ++ "/api/approve?token=" ++ tok ++ "&run_id=" ++ runId) ∧
    buildApprovalUrl "B&run_id=C" "A" "https://rv.example" =
      buildApprovalUrl "C" "A&run_id=B" "https://rv.example" :=
  ⟨fun _ _ _ => rfl, by decide⟩

/-- Claim C5, counterexample: the normalization of fetch-notion-data.mjs
does not map priorities into the closed set URGENT/HIGH/MEDIUM/LOW/UNSET —
a missing priority becomes the string "No priority", and a raw value such
as "High" passes through verbatim; neither lies in that set. -/
theorem c5_counterexample :
    (normalizeItem ⟨"row1", none, none, none, none, none, "https://n"⟩).priority =
      "No priority" ∧
    "No priority" ∉ ["URGENT", "HIGH", "MEDIUM", "LOW", "UNSET"] ∧
    (normalizeItem ⟨"row2", none, none, some "High", none, none, "https://n"⟩).priority =
      "High" ∧
    "High" ∉ ["URGENT", "HIGH", "MEDIUM", "LOW", "UNSET"] := by decide

/-- Claim C5 (amended): every raw item of a batch is mapped to a Record
without failing the batch and no item is dropped; missing fields default to
the documented placeholders "Untitled", "No status" and "Unknown"; a
missing priority defaults to the string "No priority", and a present
non-empty priority value passes through unchanged (no mapping into a
closed five-value set happens at this stage). -/
theorem c5_normalization_totality :
    (∀ items : List RawItem,
      (normalizeItems items).length = items.length ∧
      ∀ item ∈ items, normalizeItem item ∈ normalizeItems items) ∧
    (∀ item : RawItem,
      (item.nameTitle = none → (normalizeItem item).name = "Untitled") ∧
      (item.statusName = none → (normalizeItem item).status = "No status") ∧
      (item.clientName = none → (normalizeItem item).client = "Unknown") ∧
      (item.priorityName = none → (normalizeItem item).priority = "No priority") ∧
      (∀ p : String, item.priorityName = some p → p ≠ "" →
        (normalizeItem item).priority = p)) := by
  constructor
  · intro items
    exact ⟨by simp [normalizeItems], fun item hi => List.mem_map_of_mem _ hi⟩
  · intro item
    refine ⟨?_, ?_, ?_, ?_, ?_⟩
    · intro h; simp [normalizeItem, strOr, h]
    · intro h; simp [normalizeItem, strOr, h]
    · intro h; simp [normalizeItem, strOr, h]
    · intro h; simp [normalizeItem, strOr, h]
    · intro p hp hne; simp [normalizeItem, strOr, hp, hne]

/-- Claim C5, witness: the totality and default theorem applied to a
concrete one-item batch, a concrete all-missing item and a concrete item
carrying the raw priority "High". -/
theorem c5_normalization_totality_witness :
    normalizeItem ⟨"a", none, none, none, none, none, "u"⟩ ∈
      normalizeItems [⟨"a", none, none, none, none, none, "u"⟩] ∧
    (normalizeItem ⟨"a", none, none, none, none, none, "u"⟩).name = "Untitled" ∧
    (normalizeItem ⟨"b", none, none, some "High", none, none, "u"⟩).priority = "High" :=
  ⟨(c5_normalization_totality.1 [⟨"a", none, none, none, none, none, "u"⟩]).2
      ⟨"a", none, none, none, none, none, "u"⟩ (by decide),
   (c5_normalization_totality.2 ⟨"a", none, none, none, none, none, "u"⟩).1 rfl,
   (c5_normalization_totality.2 ⟨"b", none, none, some "High", none, none, "u"⟩).2.2.2.2
      "High" rfl (by decide)⟩

/-- Claim C6: upstream-failure atomicity — whenever the metadata request or
the query request returns a non-2xx response, the run exits with code 1,
data/notion-raw.json is neither created nor modified (no write step occurs
and nothing is written), and the failing response body is captured for
diagnostics. -/
theorem c6_upstream_failure_atomicity (env : FetchEnv) (server : NotionServer)
    (ht : present env.notionApiToken = true)
    (hd : present env.notionDatabaseId = true)
    (hfail : server.metaOk = false ∨ server.queryOk = false) :
    (fetchScript env server).exitCode = 1 ∧
    (fetchScript env server).written = none ∧
    (∀ p, Step.writeFile p ∉ (fetchScript env server).steps) ∧
    (server.metaOk = false →
      Step.logError server.metaBody ∈ (fetchScript env server).steps) ∧
    (server.metaOk = true →
      Step.logError server.queryBody ∈ (fetchScript env server).steps) := by
  cases hm : server.metaOk with
  | false => simp [fetchScript, ht, hd, hm]
  | true =>
    have hq : server.queryOk = false := by
      rcases hfail with h | h
      · rw [hm] at h; exact absurd h (by decide)
      · exact h
    simp [fetchScript, ht, hd, hm, hq]

/-- Claim C6, witness: the atomicity theorem applied to a concrete
environment and a server whose metadata request fails. -/
theorem c6_upstream_failure_atomicity_witness :
    (fetchScript ⟨some "tok", some "db"⟩ ⟨false, "boom", none, true, "", []⟩).exitCode = 1 ∧
    (fetchScript ⟨some "tok", some "db"⟩ ⟨false, "boom", none, true, "", []⟩).written = none := by
  have h := c6_upstream_failure_atomicity ⟨some "tok", some "db"⟩
    ⟨false, "boom", none, true, "", []⟩ (by decide) (by decide) (Or.inl rfl)
  exact ⟨h.1, h.2.1⟩

/-- Claim C7: configuration fail-fast — a fetcher run with a missing or
empty NOTION_API_TOKEN or NOTION_DATABASE_ID, and a mailer run with a
missing or empty GMAIL_FROM_EMAIL, GMAIL_APP_PASSWORD or EMAIL_RECIPIENTS
(or, when the test-email flag is set, APPROVAL_TOKEN_SECRET,
VERCEL_DEPLOYMENT_URL or GITHUB_RUN_ID), exits with code 1 as its only
step: no network request, file access or send happens. -/
theorem c7_config_fail_fast :
    (∀ (env : FetchEnv) (server : NotionServer),
      (present env.notionApiToken = false ∨ present env.notionDatabaseId = false) →
      fetchScript env server = ⟨[Step.exitStep 1], 1, none⟩) ∧
    (∀ (env : MailEnv) (reportFile : Option String) (dateStr : String),
      (present env.gmailFromEmail = false ∨ present env.gmailAppPassword = false ∨
       present env.emailRecipients = false ∨
       (isTestEmail env = true ∧
         (present env.approvalTokenSecret = false ∨
          present env.vercelDeploymentUrl = false ∨
          present env.githubRunId = false))) →
      mailerScript env reportFile dateStr = ⟨[Step.exitStep 1], 1, none⟩) := by
  constructor
  · intro env server h
    rcases h with h | h
    · simp [fetchScript, h]
    · cases ht : present env.notionApiToken <;> simp [fetchScript, ht, h]
  · intro env reportFile dateStr h
    have hne : missingVars env ≠ [] := by
      intro heq
      rw [missingVars] at heq
      rcases List.append_eq_nil.mp heq with ⟨h123, e4⟩
      rcases List.append_eq_nil.mp h123 with ⟨h12, e3⟩
      rcases List.append_eq_nil.mp h12 with ⟨e1, e2⟩
      rcases h with h | h | h | ⟨htest, h⟩
      · rw [h] at e1; simp at e1
      · rw [h] at e2; simp at e2
      · rw [h] at e3; simp at e3
      · rw [htest] at e4
        simp only [if_true] at e4
        rcases List.append_eq_nil.mp e4 with ⟨f12, f3⟩
        rcases List.append_eq_nil.mp f12 with ⟨f1, f2⟩
        rcases h with h | h | h
        · rw [h] at f1; simp at f1
        · rw [h] at f2; simp at f2
        · rw [h] at f3; simp at f3
    unfold mailerScript
    rw [if_pos hne]

/-- Claim C7, witness: the fail-fast theorem applied to a fetcher run with
no token and a mailer test-email run with no secret. -/
theorem c7_config_fail_fast_witness :
    fetchScript ⟨none, some "db"⟩ ⟨true, "", none, true, "", []⟩ =
      ⟨[Step.exitStep 1], 1, none⟩ ∧
    mailerScript ⟨some "f@g.h", some "pw", some "a@b.c", some "true", none,
        some "https://d", some "1"⟩ (some "<html></html>") "Jan 1" =
      ⟨[Step.exitStep 1], 1, none⟩ :=
  ⟨c7_config_fail_fast.1 _ _ (Or.inl (by decide)),
   c7_config_fail_fast.2 _ _ _
     (Or.inr (Or.inr (Or.inr ⟨by decide, Or.inl (by decide)⟩)))⟩

/-- A 101-item collection for the pagination counterexample. -/
def c8Collection : List RawItem :=
  (List.range 101).map (fun i => (⟨Nat.repr i, none, none, none, none, none, ""⟩ : RawItem))

/-- A healthy server holding the 101-item collection. -/
def c8Server : NotionServer := ⟨true, "", none, true, "", c8Collection⟩

/-- Claim C8, counterexample: the connector does not retrieve items beyond
the first page — against a healthy 101-item collection it persists exactly
100 items, and the 101st item (id "100") is absent from the written
batch. -/
theorem c8_counterexample :
    c8Collection.length = 101 ∧
    ((fetchScript ⟨some "t", some "db"⟩ c8Server).written.map NotionOutput.itemCount) =
      some 100 ∧
    ((fetchScript ⟨some "t", some "db"⟩ c8Server).written.map
      (fun o => List.elem (normalizeItem ⟨"100", none, none, none, none, none, ""⟩) o.items)) =
      some false := by decide

/-- Claim C8 (amended): given a healthy endpoint, the connector issues one
metadata request and exactly one query request with page size 100 and
persists exactly the normalization of the first 100 items of the
collection; items beyond the first page are not retrieved. -/
theorem c8_single_page_fetch (env : FetchEnv) (server : NotionServer)
    (ht : present env.notionApiToken = true)
    (hd : present env.notionDatabaseId = true)
    (hm : server.metaOk = true) (hq : server.queryOk = true) :
    (fetchScript env server).steps =
      [Step.request (metaUrl (env.notionDatabaseId.getD "")),
       Step.request (queryUrl (env.notionDatabaseId.getD "")),
       Step.writeFile "data/notion-raw.json"] ∧
    (fetchScript env server).written =
      some ⟨strOr server.metaTitle "Unknown Database", env.notionDatabaseId.getD "",
            normalizeItems (server.collection.take 100),
            (normalizeItems (server.collection.take 100)).length⟩ := by
  simp [fetchScript, ht, hd, hm, hq, queryResults]

/-- Claim C8, witness: the single-page theorem applied to a concrete
healthy one-item server. -/
theorem c8_single_page_fetch_witness :
    (fetchScript ⟨some "t", some "db"⟩
      ⟨true, "", some "DB", true, "", [⟨"i1", none, none, none, none, none, "u"⟩]⟩).written =
      some ⟨strOr (some "DB") "Unknown Database", (some "db").getD "",
            normalizeItems ([(⟨"i1", none, none, none, none, none, "u"⟩ : RawItem)].take 100),
            (normalizeItems
              ([(⟨"i1", none, none, none, none, none, "u"⟩ : RawItem)].take 100)).length⟩ :=
  (c8_single_page_fetch ⟨some "t", some "db"⟩
    ⟨true, "", some "DB", true, "", [⟨"i1", none, none, none, none, none, "u"⟩]⟩
    (by decide) (by decide) rfl rfl).2

/-- Claim C9, counterexample: banner injection is not always an insertion —
on the document "<body" the case-sensitive guard fires, the case-insensitive
regex `<body[^>]*>` never matches (no closing bracket), and JS `replace`
returns the input unchanged, so the non-empty banner is inserted zero
times, not exactly once. -/
theorem c9_counterexample :
    injectApprovalButton "<body" "1" "s" "https://x" = "<body" ∧
    containsBodyLower (String.data "<body") = true ∧
    approvalButtonHtml "1" "s" "https://x" ≠ "" := by
  refine ⟨by decide, by decide, ?_⟩
  intro h
  have hd := congrArg String.data h
  simp only [approvalButtonHtml, String.data_append] at hd
  rcases List.append_eq_nil.mp hd with ⟨h12, _⟩
  rcases List.append_eq_nil.mp h12 with ⟨h1, _⟩
  exact absurd h1 (by decide)

/-- Claim C9 (amended): banner injection preserves every byte of the input
in its original order. When the input lacks the lower-case substring
"<body" the banner is prepended verbatim; when it holds that substring and
the case-insensitive regex `<body[^>]*>` matches, the dollar-substituted
banner is inserted exactly once, immediately after the leftmost match —
the banner itself whenever the banner text holds no dollar character; when
it holds the substring but the regex never matches, the input is returned
unchanged with no banner inserted. -/
theorem c9_banner_injection_framing (html runId secret deploymentUrl : String) :
    (containsBodyLower html.data = false →
      injectApprovalButton html runId secret deploymentUrl =
        approvalButtonHtml runId secret deploymentUrl ++ html) ∧
    (∀ pre tag suf : List Char, containsBodyLower html.data = true →
      findBodyTag html.data = some (pre, tag, suf) →
      html.data = pre ++ tag ++ suf ∧
      (injectApprovalButton html runId secret deploymentUrl).data =
        pre ++ tag ++
          getSubst tag pre suf (approvalButtonHtml runId secret deploymentUrl).data ++ suf ∧
      ('$' ∉ (approvalButtonHtml runId secret deploymentUrl).data →
        (injectApprovalButton html runId secret deploymentUrl).data =
          pre ++ tag ++ (approvalButtonHtml runId secret deploymentUrl).data ++ suf)) ∧
    (containsBodyLower html.data = true → findBodyTag html.data = none →
      injectApprovalButton html runId secret deploymentUrl = html) := by
  refine ⟨?_, ?_, ?_⟩
  · intro h
    simp [injectApprovalButton, h]
  · intro pre tag suf hcb hfb
    refine ⟨findBodyTag_eq hfb, ?_, ?_⟩
    · simp [injectApprovalButton, hcb, hfb, getSubst_capture]
    · intro hnd
      simp [injectApprovalButton, hcb, hfb, getSubst_capture,
        getSubst_no_dollar tag pre suf _ hnd]
  · intro hcb hfb
    simp [injectApprovalButton, hcb, hfb]

/-- Claim C9, witness: the framing theorem applied to a concrete document
with a well-formed body tag; the split hypotheses and the dollar-free
banner hypothesis are discharged by evaluation on the concrete banner. -/
theorem c9_banner_injection_framing_witness :
    ("<html><body>x</body></html>" : String).data =
      ("<html>" : String).data ++ ("<body>" : String).data ++
        ("x</body></html>" : String).data ∧
    (injectApprovalButton "<html><body>x</body></html>" "1" "s" "https://d").data =
      ("<html>" : String).data ++ ("<body>" : String).data ++
        (approvalButtonHtml "1" "s" "https://d").data ++
        ("x</body></html>" : String).data := by
  have h := (c9_banner_injection_framing "<html><body>x</body></html>" "1" "s" "https://d").2.1
    ("<html>" : String).data ("<body>" : String).data ("x</body></html>" : String).data
    (by decide) (by decide)
  exact ⟨h.1, h.2.2 (by decide)⟩

/-- Claim C4, counterexample: a PREVIEW send does not always include the
approval banner — for the report "<body" (the guard substring present, the
body-tag regex unmatched) the preview run sends the report byte-for-byte
unchanged, with no banner, although the banner is non-empty. -/
theorem c4_counterexample :
    (mailerScript (previewEnv "from@x.y" "pw" "boss@x.y" "sec" "https://d" "42")
      (some "<body") "Jan 1, 2026").sent =
      some ⟨["boss@x.y"], "[TEST] Product Status Update - Jan 1, 2026", "<body"⟩ ∧
    approvalButtonHtml "42" "sec" "https://d" ≠ "" := by
  refine ⟨by decide, ?_⟩
  intro h
  have hd := congrArg String.data h
  simp only [approvalButtonHtml, String.data_append] at hd
  rcases List.append_eq_nil.mp hd with ⟨h12, _⟩
  rcases List.append_eq_nil.mp h12 with ⟨h1, _⟩
  exact absurd h1 (by decide)

/-- Claim C4 (amended): mailer call shapes — under the spec's run contexts,
a PREVIEW send targets the single preview address; when the report holds a
case-insensitive body-open tag match, its HTML carries the
dollar-substituted approval banner inserted after the tag (the banner
itself, carrying the signed approval URL, whenever the banner text holds no
dollar character); when the report lacks the lowercase substring "<body"
the banner is prepended verbatim; when the report holds that substring but
the regex never matches, the preview HTML is the report unchanged with no
banner. A BROADCAST send targets the full parsed recipient list and its
HTML is the report file's contents unchanged — the banner-injection step is
skipped entirely. The banner embeds the signed approval URL between the two
fixed banner texts. -/
theorem c4_mailer_call_shapes
    (gmailFrom gmailPass previewAddr secret deploymentUrl runId recipientList
      report dateStr : String)
    (hgf : gmailFrom ≠ "") (hgp : gmailPass ≠ "") (hsec : secret ≠ "")
    (hdep : deploymentUrl ≠ "") (hrun : runId ≠ "") (hrl : recipientList ≠ "") :
    (∀ pre tag suf : List Char,
      parseRecipients previewAddr = [previewAddr] →
      containsBodyLower report.data = true →
      findBodyTag report.data = some (pre, tag, suf) →
      (mailerScript (previewEnv gmailFrom gmailPass previewAddr secret deploymentUrl runId)
        (some report) dateStr).sent =
        some ⟨[previewAddr], "[TEST] Product Status Update - " ++ dateStr,
          String.mk (pre ++ tag ++
            getSubst tag pre suf (approvalButtonHtml runId secret deploymentUrl).data ++
            suf)⟩ ∧
      ('$' ∉ (approvalButtonHtml runId secret deploymentUrl).data →
        (mailerScript (previewEnv gmailFrom gmailPass previewAddr secret deploymentUrl runId)
          (some report) dateStr).sent =
          some ⟨[previewAddr], "[TEST] Product Status Update - " ++ dateStr,
            String.mk (pre ++ tag ++
              (approvalButtonHtml runId secret deploymentUrl).data ++ suf)⟩)) ∧
    (parseRecipients previewAddr = [previewAddr] →
      containsBodyLower report.data = false →
      (mailerScript (previewEnv gmailFrom gmailPass previewAddr secret deploymentUrl runId)
        (some report) dateStr).sent =
        some ⟨[previewAddr], "[TEST] Product Status Update - " ++ dateStr,
          approvalButtonHtml runId secret deploymentUrl ++ report⟩) ∧
    (parseRecipients previewAddr = [previewAddr] →
      containsBodyLower report.data = true →
      findBodyTag report.data = none →
      (mailerScript (previewEnv gmailFrom gmailPass previewAddr secret deploymentUrl runId)
        (some report) dateStr).sent =
        some ⟨[previewAddr], "[TEST] Product Status Update - " ++ dateStr, report⟩) ∧
    (parseRecipients recipientList ≠ [] →
      (mailerScript (broadcastEnv gmailFrom gmailPass recipientList)
        (some report) dateStr).sent =
        some ⟨parseRecipients recipientList, "Product Status Update - " ++ dateStr, report⟩) ∧
    approvalButtonHtml runId secret deploymentUrl =
      bannerPre ++
        buildApprovalUrl runId (generateApprovalToken runId secret) deploymentUrl ++
        bannerPost := by
  have hprevMissing : ∀ previewAddr2 : String, previewAddr2 ≠ "" →
      missingVars (previewEnv gmailFrom gmailPass previewAddr2 secret deploymentUrl runId) =
        [] := by
    intro previewAddr2 hpa2
    simp [missingVars, previewEnv, present, isTestEmail, bne_iff_ne, hgf, hgp, hsec, hdep,
      hrun, hpa2]
  have hbroadMissing : missingVars (broadcastEnv gmailFrom gmailPass recipientList) = [] := by
    simp [missingVars, broadcastEnv, present, isTestEmail, bne_iff_ne, hgf, hgp, hrl]
  have hpane : parseRecipients previewAddr = [previewAddr] → previewAddr ≠ "" := by
    intro hpa h0
    rw [h0] at hpa
    have hempty : parseRecipients "" = [] := by decide
    rw [hempty] at hpa
    simp at hpa
  refine ⟨?_, ?_, ?_, ?_, rfl⟩
  · intro pre tag suf hpa hcb hfb
    constructor
    · unfold mailerScript
      rw [if_neg (by simp [hprevMissing previewAddr (hpane hpa)])]
      simp [previewEnv, isTestEmail, injectApprovalButton, hcb, hfb, hpa, getSubst_capture]
    · intro hnd
      unfold mailerScript
      rw [if_neg (by simp [hprevMissing previewAddr (hpane hpa)])]
      simp [previewEnv, isTestEmail, injectApprovalButton, hcb, hfb, hpa, getSubst_capture,
        getSubst_no_dollar tag pre suf _ hnd]
  · intro hpa hcb
    unfold mailerScript
    rw [if_neg (by simp [hprevMissing previewAddr (hpane hpa)])]
    simp [previewEnv, isTestEmail, injectApprovalButton, hcb, hpa]
  · intro hpa hcb hfb
    unfold mailerScript
    rw [if_neg (by simp [hprevMissing previewAddr (hpane hpa)])]
    simp [previewEnv, isTestEmail, injectApprovalButton, hcb, hfb, hpa]
  · intro hrec
    unfold mailerScript
    rw [if_neg (by simp [hbroadMissing])]
    simp [broadcastEnv, isTestEmail, hrec]

/-- Claim C4, witness: the call-shape theorem applied to a concrete preview
send with a dollar-free banner and to a concrete broadcast send. -/
theorem c4_mailer_call_shapes_witness :
    (mailerScript (previewEnv "from@x.y" "pw" "boss@x.y" "sec" "https://d" "42")
      (some "<html><body>R</body></html>") "Jan 1, 2026").sent =
      some ⟨["boss@x.y"], "[TEST] Product Status Update - Jan 1, 2026",
        String.mk (("<html>" : String).data ++ ("<body>" : String).data ++
          (approvalButtonHtml "42" "sec" "https://d").data ++
          ("R</body></html>" : String).data)⟩ ∧
    (mailerScript (broadcastEnv "from@x.y" "pw" "a@b.c,d@e.f")
      (some "<html><body>R</body></html>") "Jan 1, 2026").sent =
      some ⟨parseRecipients "a@b.c,d@e.f", "Product Status Update - Jan 1, 2026",
        "<html><body>R</body></html>"⟩ := by
  constructor
  · exact ((c4_mailer_call_shapes "from@x.y" "pw" "boss@x.y" "sec" "https://d" "42"
      "a@b.c,d@e.f" "<html><body>R</body></html>" "Jan 1, 2026"
      (by decide) (by decide) (by decide) (by decide) (by decide) (by decide)).1
      ("<html>" : String).data ("<body>" : String).data ("R</body></html>" : String).data
      (by decide) (by decide) (by decide)).2 (by decide)
  · exact (c4_mailer_call_shapes "from@x.y" "pw" "boss@x.y" "sec" "https://d" "42"
      "a@b.c,d@e.f" "<html><body>R</body></html>" "Jan 1, 2026"
      (by decide) (by decide) (by decide) (by decide) (by decide) (by decide)).2.2.2.1
      (by decide)

end RV
